import Mathlib

/-!
# Verification of the phpipam-legacy-migrator core

A shallow embedding, in Lean 4, of the core of the
`paybyphone/phpipam-legacy-migrator` repository (Go), together with theorems
settling the specification claims about it.

Embedded components, with the Go source they are translated from:

* the address codec `decimalIPAddrToString` (`main.go`), built on Go's
  `strconv.ParseUint(s, 10, 32)` and `net.IP.String()` for a 4-byte IP;
* the subnet sorter `SubnetsSorter` (`helper/subnets_sorter.go`) together with
  the Go standard library `sort.Sort` algorithm it is run through in
  `addSubnets` (stdlib `sort.go` of the Go releases contemporary with the
  repository, i.e. the pre-1.19 introsort: quicksort with median-of-three /
  Tukey-ninther pivoting, a heapsort depth fallback, and a shell-sort pass with
  gap 6 followed by insertion sort for ranges of at most 12 elements);
* the parent resolver `ParentSubnetIDForCIDR` (`helper/parent_subnet.go`),
  probing the target system at masks `mask-1` down to `8`;
* the lookup helpers `vlanIDForNumber` and `subnetIDForCIDR` (`main.go`);
* the row filtering of `fetchSubnets` and the three-phase pipeline
  `addVLANs` / `addSubnets` / `addAddresses` driven by `main` (`main.go`).

Go machine integers are modelled as `Int` (fields) or `Nat` (indices, parsed
32-bit values, with explicit `% 2 ^ k` where byte extraction matters); Go
strings are Lean `String`s, and Go's byte-wise string comparison is modelled
on the UTF-8 byte sequence of the string (for the ASCII strings this program
produces, the bytes are the code points themselves).  Calls into the phpipam
API are modelled by explicit oracle functions describing the reply of the
target system, with a distinct not-found outcome, mirroring the SDK surface
(`GetSubnetsByCIDR`, `GetVLANsByNumber`, `Create*`).  `logrus.Fatalf`
(process abort) and an out-of-range slice index (runtime panic) are modelled
as distinguished terminal outcomes.
-/

namespace PhpipamMigrator

/-! ## Data model

`subnets.Subnet` (SDK): only the fields the migrator reads or writes are
modelled; every other field of the Go struct is never touched by the tool and
is constant through it. -/

/-- The fields of `subnets.Subnet` used by the migrator: `ID`,
`SubnetAddress`, `Mask`, `Description`, `VLANID`, `SectionID`,
`MasterSubnetID`. -/
structure Subnet where
  id : Int := 0
  subnetAddress : String := ""
  mask : Int := 0
  description : String := ""
  vlanID : Int := 0
  sectionID : Int := 0
  masterSubnetID : Int := 0
deriving DecidableEq, Repr, Inhabited

/-- The fields of `vlans.VLAN` used by the migrator (`fetchVLANs`,
`addVLANs`): `Name`, `Number`, `Description`. -/
structure VLAN where
  name : String := ""
  number : Int := 0
  description : String := ""
deriving DecidableEq, Repr, Inhabited

/-- The fields of `addresses.Address` used by the migrator
(`fetchAddresses`, `addAddresses`). -/
structure Address where
  subnetID : Int := 0
  ipAddress : String := ""
  description : String := ""
  hostname : String := ""
  note : String := ""
deriving DecidableEq, Repr, Inhabited

/-! ## Decimal digit strings

Helper encode/decode between `Nat` and decimal digit characters, shared by
the model of Go's `strconv.ParseUint`, `net.IP.String` (whose octets are
printed by `uitoa`) and `fmt.Sprintf("%d", ...)`. -/

/-- The decimal digit character for `d < 10`. -/
def digitChar (d : Nat) : Char := Char.ofNat (48 + d)

/-- Fuel-driven worker for `natChars`; the fuel only bounds the recursion
depth (one digit is emitted per unit), it never runs out when `n < fuel`
(`natCharsAux_congr` below makes this irrelevance precise). -/
def natCharsAux : Nat → Nat → List Char
  | 0, _ => []
  | f + 1, n =>
    if n < 10 then [digitChar n]
    else natCharsAux f (n / 10) ++ [digitChar (n % 10)]

/-- Decimal digit characters of `n`, most significant first (the digit string
produced by Go's `uitoa` / `strconv.Itoa` for a non-negative value). -/
def natChars (n : Nat) : List Char := natCharsAux (n + 1) n

/-- Decimal digit string of `n` (Go `uitoa`). -/
def natStr (n : Nat) : String := ⟨natChars n⟩

/-- `true` exactly for the ASCII characters `0`-`9`. -/
def isDigitChar (c : Char) : Bool := 48 ≤ c.toNat && c.toNat ≤ 57

/-- Numeric value of a decimal digit character list, most significant first
(the accumulation loop of Go's `ParseUint`, before the overflow check). -/
def digitsVal (cs : List Char) : Nat :=
  cs.foldl (fun a c => a * 10 + (c.toNat - 48)) 0

/-- Go `strconv.ParseUint(s, 10, 32)`: succeeds exactly on a non-empty string
of decimal digits whose value fits in 32 bits, returning that value.
(Base 10 admits no sign, no digit separators and no base prefix; on any
malformed character or on overflow the Go function returns a non-nil error,
which is all the callers inspect.) -/
def goParseUint32 (s : String) : Option Nat :=
  if s.data ≠ [] ∧ s.data.all isDigitChar ∧ digitsVal s.data < 2 ^ 32 then
    some (digitsVal s.data)
  else
    none

/-! ## AddressCodec: `decimalIPAddrToString` (`main.go`) -/

/-- `net.IP.String()` for the 4-byte IP produced by
`binary.BigEndian.PutUint32`: the four big-endian octets of `v`, each printed
in decimal, joined by dots. -/
def ipString (v : Nat) : String :=
  natStr (v / 2 ^ 24 % 2 ^ 8) ++ "." ++ natStr (v / 2 ^ 16 % 2 ^ 8) ++ "." ++
    natStr (v / 2 ^ 8 % 2 ^ 8) ++ "." ++ natStr (v % 2 ^ 8)

/-- `decimalIPAddrToString` (`main.go`): parse the input as an unsigned
32-bit decimal, and on success render it as a dotted quad via
`binary.BigEndian.PutUint32` + `net.IP.String`.  `none` is the error return
(`("", err)` in Go). -/
def decimalIPAddrToString (addr : String) : Option String :=
  match goParseUint32 addr with
  | none => none
  | some d => some (ipString d)

/-! ## Spec-side re-encoding of a dotted quad

Used to state the round-trip property (C6): split the dotted quad on `.`,
parse the four decimal octets, and reassemble the 32-bit value.  This is the
specification's "re-encoding the resulting dotted-quad back to a 32-bit
integer"; it is written from the spec's words, not from the Go source. -/

/-- Split a character list on `.` (every maximal dot-free run, in order). -/
def splitDots : List Char → List (List Char)
  | [] => [[]]
  | c :: cs =>
    if c = '.' then [] :: splitDots cs
    else
      match splitDots cs with
      | [] => [[c]]
      | p :: ps => (c :: p) :: ps

/-- Combine the dot-separated components of a dotted quad: exactly four
non-empty decimal components, taken big-endian. -/
def quadVal : List (List Char) → Option Nat
  | [a, b, c, d] =>
    if a ≠ [] ∧ b ≠ [] ∧ c ≠ [] ∧ d ≠ [] ∧
        (a.all isDigitChar ∧ b.all isDigitChar ∧ c.all isDigitChar ∧ d.all isDigitChar) then
      some (digitsVal a * 2 ^ 24 + digitsVal b * 2 ^ 16 + digitsVal c * 2 ^ 8 + digitsVal d)
    else none
  | _ => none

/-- Re-encode a dotted quad to its 32-bit value: exactly four dot-separated
non-empty decimal components, combined big-endian. -/
def encodeDotted (s : String) : Option Nat := quadVal (splitDots s.data)

/-! ## Go string comparison

Go's `<` on strings compares the UTF-8 byte sequences lexicographically.
`utf8Bytes` is the UTF-8 encoding of one code point (RFC 3629); `strBytes`
is the byte sequence of a whole string; `byteLtList` is byte-wise
lexicographic comparison. -/

/-- UTF-8 bytes of one code point, written from the UTF-8 definition. -/
def utf8Bytes (c : Char) : List Nat :=
  let n := c.toNat
  if n < 128 then [n]
  else if n < 2048 then [192 + n / 64, 128 + n % 64]
  else if n < 65536 then [224 + n / 4096, 128 + n / 64 % 64, 128 + n % 64]
  else [240 + n / 262144, 128 + n / 4096 % 64, 128 + n / 64 % 64, 128 + n % 64]

/-- UTF-8 byte sequence of a string. -/
def strBytes (s : String) : List Nat := s.data.flatMap utf8Bytes

/-- Byte-wise lexicographic strictly-less-than on byte sequences. -/
def byteLtList : List Nat → List Nat → Bool
  | [], [] => false
  | [], _ :: _ => true
  | _ :: _, [] => false
  | a :: as, b :: bs => if a < b then true else if a = b then byteLtList as bs else false

/-- Go `s < t` on strings: byte-wise lexicographic comparison of the UTF-8
bytes. -/
def goStringLt (s t : String) : Bool := byteLtList (strBytes s) (strBytes t)

/-! ## SubnetsSorter (`helper/subnets_sorter.go`) and Go `sort.Sort`

`Less(i, j)` compares `fmt.Sprintf("%s/%d", addr, mask)` with Go string `<`.
`sort.Sort` is the Go standard library introsort of the releases the
repository was built with (stdlib `sort.go`, Go 1.6 through 1.18): quicksort
with median-of-three (Tukey ninther above 40 elements) pivoting and a
duplicate-protection pass, a heapsort fallback when the depth limit `2*⌈log₂
n⌉` is reached, and — for ranges of at most 12 elements — one shell-sort pass
with gap 6 followed by insertion sort.  It is explicitly documented as not
guaranteed to be stable.

Go's imperative loops are rendered as structural recursions: counted loops
recurse on the iteration count; the quicksort outer loop and the scanning
loops of `doPivot` carry a fuel argument that dominates their iteration
count at every call site (each iteration strictly shrinks the corresponding
range, so the fuel never runs out on the ranges the sort actually visits).
All index accesses stay in bounds in the real runs; `getD`/`setD` give the
out-of-range cases a harmless default. -/

/-- `fmt.Sprintf("%s/%d", s.SubnetAddress, s.Mask)`: the sort key of
`SubnetsSorter.Less`. -/
def subnetKey (s : Subnet) : String := s.subnetAddress ++ "/" ++ toString s.mask

/-- `SubnetsSorter.Less` as a relation on the two records themselves. -/
def subnetsSorterLess (x y : Subnet) : Bool := goStringLt (subnetKey x) (subnetKey y)

/-- `data.Less(i, j)` on the underlying slice. -/
def lessGo (arr : Array Subnet) (i j : Nat) : Bool :=
  subnetsSorterLess (arr.getD i default) (arr.getD j default)

/-- `data.Swap(i, j)` on the underlying slice. -/
def swapGo (arr : Array Subnet) (i j : Nat) : Array Subnet :=
  let x := arr.getD i default
  let y := arr.getD j default
  (arr.setD i y).setD j x

/-- Counting loop of `maxDepth` (`for i := n; i > 0; i >>= 1 { depth++ }`);
the first argument is fuel, sufficient whenever `n < fuel`. -/
def bitCountAux : Nat → Nat → Nat
  | 0, _ => 0
  | f + 1, n => if n > 0 then bitCountAux f (n / 2) + 1 else 0

/-- `maxDepth(n)`: `2 * ⌈log₂(n+1)⌉`, the depth at which quicksort switches
to heapsort. -/
def maxDepthGo (n : Nat) : Nat := 2 * bitCountAux (n + 1) n

/-- Inner loop of `insertionSort`
(`for j := i; j > a && data.Less(j, j-1); j--`). -/
def insInner : Array Subnet → Nat → Nat → Array Subnet
  | arr, _, 0 => arr
  | arr, aLo, j + 1 =>
    if aLo < j + 1 && lessGo arr (j + 1) j then insInner (swapGo arr (j + 1) j) aLo j
    else arr

/-- Outer loop of `insertionSort` (`for i := a + 1; i < b; i++`), recursing
on the remaining iteration count. -/
def insLoop : Array Subnet → Nat → Nat → Nat → Array Subnet
  | arr, _, _, 0 => arr
  | arr, aLo, i, c + 1 => insLoop (insInner arr aLo i) aLo (i + 1) c

/-- `insertionSort(data, a, b)`. -/
def insertionSortGo (arr : Array Subnet) (a b : Nat) : Array Subnet :=
  insLoop arr a (a + 1) (b - (a + 1))

/-- `siftDown(data, lo, hi, first)` body; the fuel dominates the iteration
count (the root index at least doubles every iteration while staying below
`hi`, so `hi` units always suffice). -/
def siftDownAux : Nat → Array Subnet → Nat → Nat → Nat → Array Subnet
  | 0, arr, _, _, _ => arr
  | f + 1, arr, root, hi, first =>
    let child := 2 * root + 1
    if child ≥ hi then arr
    else
      let child := if child + 1 < hi && lessGo arr (first + child) (first + child + 1) then
          child + 1
        else child
      if ! lessGo arr (first + root) (first + child) then arr
      else siftDownAux f (swapGo arr (first + root) (first + child)) child hi first

/-- `siftDown(data, lo, hi, first)`. -/
def siftDownGo (arr : Array Subnet) (root hi first : Nat) : Array Subnet :=
  siftDownAux hi arr root hi first

/-- Heap-building loop of `heapSort`
(`for i := (hi - 1) / 2; i >= 0; i--`), counting `i` down to `0`. -/
def heapBuild : Array Subnet → Nat → Nat → Nat → Array Subnet
  | arr, hi, first, 0 => siftDownGo arr 0 hi first
  | arr, hi, first, i + 1 => heapBuild (siftDownGo arr (i + 1) hi first) hi first i

/-- Pop loop of `heapSort` (`for i := hi - 1; i >= 0; i--`: swap the maximum
to the end, re-sift), counting `i` down to `0`. -/
def heapPop : Array Subnet → Nat → Nat → Array Subnet
  | arr, first, 0 => siftDownGo (swapGo arr first first) 0 0 first
  | arr, first, i + 1 =>
    heapPop (siftDownGo (swapGo arr first (first + (i + 1))) 0 (i + 1) first) first i

/-- `heapSort(data, a, b)`.  In Go both index loops run at least once when
`hi ≥ 1` and the pop loop does not run at all when `hi = 0` (its counter
starts negative); the build loop still runs its single `i = 0` iteration
then, which is a no-op of `siftDown`. -/
def heapSortGo (arr : Array Subnet) (a b : Nat) : Array Subnet :=
  let hi := b - a
  let arr := heapBuild arr hi a ((hi - 1) / 2)
  if hi = 0 then arr else heapPop arr a (hi - 1)

/-- `medianOfThree(data, m1, m0, m2)`. -/
def medianOfThreeGo (arr : Array Subnet) (m1 m0 m2 : Nat) : Array Subnet :=
  let arr := if lessGo arr m1 m0 then swapGo arr m1 m0 else arr
  if lessGo arr m2 m1 then
    let arr := swapGo arr m2 m1
    if lessGo arr m1 m0 then swapGo arr m1 m0 else arr
  else arr

/-- First scan of `doPivot` (`for ; a < c && data.Less(a, pivot); a++`). -/
def scanLtUpAux : Nat → Array Subnet → Nat → Nat → Nat → Nat
  | 0, _, _, _, a => a
  | f + 1, arr, pivot, c, a =>
    if a < c && lessGo arr a pivot then scanLtUpAux f arr pivot c (a + 1) else a

/-- Forward scan of the partition loop
(`for ; b < c && !data.Less(pivot, b); b++`). -/
def scanLeUpAux : Nat → Array Subnet → Nat → Nat → Nat → Nat
  | 0, _, _, _, b => b
  | f + 1, arr, pivot, c, b =>
    if b < c && ! lessGo arr pivot b then scanLeUpAux f arr pivot c (b + 1) else b

/-- Backward scan of the partition loop
(`for ; b < c && data.Less(pivot, c-1); c--`). -/
def scanGtDownAux : Nat → Array Subnet → Nat → Nat → Nat → Nat
  | 0, _, _, _, c => c
  | f + 1, arr, pivot, b, c =>
    if b < c && lessGo arr pivot (c - 1) then scanGtDownAux f arr pivot b (c - 1) else c

/-- Main partition loop of `doPivot`; every iteration advances `b` and
retreats `c`, so fuel `c - b + 1` at the call site never runs out. -/
def partLoopAux : Nat → Array Subnet → Nat → Nat → Nat → Array Subnet × Nat × Nat
  | 0, arr, _, b, c => (arr, b, c)
  | f + 1, arr, pivot, b, c =>
    let b := scanLeUpAux (c - b + 1) arr pivot c b
    let c := scanGtDownAux (c - b + 1) arr pivot b c
    if b ≥ c then (arr, b, c)
    else partLoopAux f (swapGo arr b (c - 1)) pivot (b + 1) (c - 1)

/-- Backward scan of the duplicate-protection loop
(`for ; a < b && !data.Less(b-1, pivot); b--`). -/
def protScanDownAux : Nat → Array Subnet → Nat → Nat → Nat → Nat
  | 0, _, _, _, b => b
  | f + 1, arr, pivot, a, b =>
    if a < b && ! lessGo arr (b - 1) pivot then protScanDownAux f arr pivot a (b - 1) else b

/-- Forward scan of the duplicate-protection loop
(`for ; a < b && data.Less(a, pivot); a++`). -/
def protScanUpAux : Nat → Array Subnet → Nat → Nat → Nat → Nat
  | 0, _, _, _, a => a
  | f + 1, arr, pivot, b, a =>
    if a < b && lessGo arr a pivot then protScanUpAux f arr pivot b (a + 1) else a

/-- Duplicate-protection loop of `doPivot`; every iteration advances `a` and
retreats `b`, so fuel `b - a + 1` at the call site never runs out. -/
def protLoopAux : Nat → Array Subnet → Nat → Nat → Nat → Array Subnet × Nat × Nat
  | 0, arr, _, a, b => (arr, a, b)
  | f + 1, arr, pivot, a, b =>
    let b := protScanDownAux (b - a + 1) arr pivot a b
    let a := protScanUpAux (b - a + 1) arr pivot b a
    if a ≥ b then (arr, a, b)
    else protLoopAux f (swapGo arr a (b - 1)) pivot (a + 1) (b - 1)

/-- `doPivot(data, lo, hi) -> (midlo, midhi)`. -/
def doPivotGo (arr : Array Subnet) (lo hi : Nat) : Array Subnet × Nat × Nat :=
  let m := lo + (hi - lo) / 2
  let arr := if hi - lo > 40 then
      let s := (hi - lo) / 8
      let arr := medianOfThreeGo arr lo (lo + s) (lo + 2 * s)
      let arr := medianOfThreeGo arr m (m - s) (m + s)
      medianOfThreeGo arr (hi - 1) (hi - 1 - s) (hi - 1 - 2 * s)
    else arr
  let arr := medianOfThreeGo arr lo m (hi - 1)
  let pivot := lo
  let a := scanLtUpAux (hi - 1 - (lo + 1) + 1) arr pivot (hi - 1) (lo + 1)
  let pr := partLoopAux (hi - 1 - a + 1) arr pivot a (hi - 1)
  let arr := pr.1
  let b := pr.2.1
  let c := pr.2.2
  let protect := hi - c < 5
  let st :=
    if ! protect && hi - c < (hi - lo) / 4 then
      -- test some points for equality to the pivot
      let s1 := if ! lessGo arr pivot (hi - 1) then (swapGo arr c (hi - 1), c + 1, 1)
        else (arr, c, 0)
      let arr := s1.1
      let c := s1.2.1
      let dups := s1.2.2
      let s2 := if ! lessGo arr (b - 1) pivot then (b - 1, dups + 1) else (b, dups)
      let b := s2.1
      let dups := s2.2
      let s3 := if ! lessGo arr m pivot then (swapGo arr m (b - 1), b - 1, dups + 1)
        else (arr, b, dups)
      (s3.1, s3.2.1, c, decide (s3.2.2 > 1))
    else (arr, b, c, protect)
  let arr := st.1
  let b := st.2.1
  let c := st.2.2.1
  let protect := st.2.2.2
  let pl := if protect then protLoopAux (b - a + 1) arr pivot a b else (arr, a, b)
  let arr := pl.1
  let b := pl.2.2
  (swapGo arr pivot (b - 1), b - 1, c)

/-- Shell-sort pass with gap 6
(`for i := a + 6; i < b; i++ { if data.Less(i, i-6) { data.Swap(i, i-6) } }`),
recursing on the remaining iteration count. -/
def shellAux : Array Subnet → Nat → Nat → Array Subnet
  | arr, _, 0 => arr
  | arr, i, c + 1 =>
    shellAux (if lessGo arr i (i - 6) then swapGo arr i (i - 6) else arr) (i + 1) c

/-- `quickSort(data, a, b, maxDepth)`; the fuel dominates the recursion
depth (every recursive call is on a strictly smaller range, so `n + 1` units
suffice for an `n`-element slice). -/
def quickSortGo : Nat → Array Subnet → Nat → Nat → Nat → Array Subnet
  | 0, arr, _, _, _ => arr
  | f + 1, arr, a, b, maxd =>
    if b - a > 12 then
      if maxd = 0 then heapSortGo arr a b
      else
        let pr := doPivotGo arr a b
        let arr := pr.1
        let mlo := pr.2.1
        let mhi := pr.2.2
        if mlo - a < b - mhi then
          quickSortGo f (quickSortGo f arr a mlo (maxd - 1)) mhi b (maxd - 1)
        else
          quickSortGo f (quickSortGo f arr mhi b (maxd - 1)) a mlo (maxd - 1)
    else
      if b - a > 1 then
        insertionSortGo (shellAux arr (a + 6) (b - (a + 6))) a b
      else arr

/-- `sort.Sort(helper.SubnetsSorter(nets))` as applied in `addSubnets`:
the ordering imposed on the subnet batch before creation. -/
def sortSortSubnets (l : List Subnet) : List Subnet :=
  let arr := l.toArray
  (quickSortGo (arr.size + 1) arr 0 arr.size (maxDepthGo arr.size)).toList

/-! ## ParentResolver: `ParentSubnetIDForCIDR` (`helper/parent_subnet.go`)

The target system is reached through `GetSubnetsByCIDR`, modelled as an
oracle from the queried CIDR (network address and mask, both numeric — the
dotted-quad address of the migrator is the rendering of a 32-bit value) to
the reply.  The reply distinguishes a successful (HTTP 200) result list, the
specific `"Error from API (404): No subnets found"` error, and every other
non-nil error. -/

/-- A subnet record as registered in the target system, with the fields the
resolver touches: its identifier, and the (normalized) network address and
mask that an exact-CIDR lookup matches against. -/
structure Block where
  id : Int
  addr : Nat
  mask : Nat
deriving DecidableEq, Repr

/-- Reply of one `GetSubnetsByCIDR` call. -/
inductive LookupReply where
  /-- nil error: the decoded result slice. -/
  | ok (result : List Block)
  /-- the distinct `"Error from API (404): No subnets found"` error. -/
  | notFound
  /-- any other non-nil error (transport or API fault). -/
  | fault
deriving DecidableEq, Repr

/-- The target system as seen by the resolver: the reply to an exact-CIDR
subnet lookup, keyed by network address and mask. -/
abbrev SubnetLookup := Nat → Nat → LookupReply

/-- How one run of `ParentSubnetIDForCIDR` ends. -/
inductive ResolveOutcome where
  /-- `return subnets[0].ID` — a parent was found. -/
  | found (id : Int)
  /-- the loop passed below mask 8 — `return 0`, no parent. -/
  | noParent
  /-- `logrus.Fatalf` — `ParseCIDR` failed or the lookup faulted; the whole
  process exits. -/
  | fatal
  /-- `subnets[0]` evaluated on an empty slice — runtime panic. -/
  | panicked
deriving DecidableEq, Repr

/-- The network address `net.ParseCIDR("<addr>/<n>").String()` queries: the
top `n` bits of the 32-bit address (host bits zeroed). -/
def netAddr (addr n : Nat) : Nat := addr / 2 ^ (32 - n) * 2 ^ (32 - n)

/-- The probe loop of `ParentSubnetIDForCIDR` (`for n >= 8 { ... n-- }`),
re-indexed on the count `k` of remaining probe masks: the mask probed at
counter `k + 1` is `k + 8`, so counter `k₀ = mask - 8` makes the first probe
`mask - 1` and the last `8`, and `k = 0` is the `n < 8` exit.  `ParseCIDR`
succeeds exactly when the mask is at most 32 (the address, a rendered 32-bit
value, is always a valid dotted quad); on a parse error the code calls
`logrus.Fatalf` without issuing a lookup. -/
def probeLoop (api : SubnetLookup) (addr : Nat) : Nat → ResolveOutcome
  | 0 => .noParent
  | k + 1 =>
    if k + 8 ≤ 32 then
      match api (netAddr addr (k + 8)) (k + 8) with
      | .ok [] => .panicked
      | .ok (s :: _) => .found s.id
      | .notFound => probeLoop api addr k
      | .fault => .fatal
    else .fatal

/-- `ParentSubnetIDForCIDR(session, addr, mask)` (the session is the oracle). -/
def parentSubnetIDForCIDR (api : SubnetLookup) (addr : Nat) (mask : Int) : ResolveOutcome :=
  probeLoop api addr (mask - 8).toNat

/-- The masks at which `ParentSubnetIDForCIDR` actually issues a
`GetSubnetsByCIDR` call, in probe order (same loop as `probeLoop`; a parse
failure aborts before any call, and any reply other than the 404 ends the
loop). -/
def probeCalls (api : SubnetLookup) (addr : Nat) : Nat → List Nat
  | 0 => []
  | k + 1 =>
    if k + 8 ≤ 32 then
      match api (netAddr addr (k + 8)) (k + 8) with
      | .notFound => (k + 8) :: probeCalls api addr k
      | _ => [k + 8]
    else []

/-- The calls made by a full `ParentSubnetIDForCIDR` run. -/
def resolveCalls (api : SubnetLookup) (addr : Nat) (mask : Int) : List Nat :=
  probeCalls api addr (mask - 8).toNat

/-- A target-system state for the resolver: the registered blocks, in the
order the API reports them.  The exact-CIDR lookup interface of the target
system returns the registered subnets whose CIDR equals the query, and the
distinct not-found signal when there are none. -/
def lookupByCIDR (st : List Block) (net mask : Nat) : LookupReply :=
  match st.filter (fun b => b.addr == net && b.mask == mask) with
  | [] => .notFound
  | l => .ok l

/-- A state is well-formed when every registered block carries a non-zero
identifier and a normalized CIDR: mask at most 32 and host bits zero (this
is what the target system stores for a created subnet). -/
def WFState (st : List Block) : Prop :=
  ∀ b ∈ st, b.id ≠ 0 ∧ b.mask ≤ 32 ∧ b.addr = netAddr b.addr b.mask

/-- Block `b` contains address `addr`: the top `b.mask` bits of `addr` are
`b`'s network address. -/
def containsAddr (b : Block) (addr : Nat) : Prop := b.addr = netAddr addr b.mask

/-! ## VLANIndex / SubnetIndex lookups (`main.go`)

`vlanIDForNumber` and `subnetIDForCIDR` treat every non-nil error as fatal
(there is no distinguished not-found path in them) and index the result
slice at 0 otherwise. -/

/-- A VLAN record as returned by `GetVLANsByNumber`, with the fields the
migrator touches. -/
structure VLANRec where
  id : Int
  number : Int
deriving DecidableEq, Repr

/-- Reply of one lookup call in `main.go` (`GetVLANsByNumber`,
`GetSubnetsByCIDR`): the decoded slice, or any non-nil error. -/
inductive CallReply (α : Type) where
  | ok (result : List α)
  | fault
deriving DecidableEq, Repr

/-- How a lookup helper of `main.go` ends. -/
inductive CallOutcome where
  /-- `return result[0].ID`. -/
  | value (id : Int)
  /-- `logrus.Fatalf` on a non-nil error. -/
  | fatal
  /-- `result[0]` evaluated on an empty slice — runtime panic. -/
  | panicked
deriving DecidableEq, Repr

/-- `vlanIDForNumber(n)` (`main.go`). -/
def vlanIDForNumber (api : Int → CallReply VLANRec) (n : Int) : CallOutcome :=
  match api n with
  | .fault => .fatal
  | .ok [] => .panicked
  | .ok (v :: _) => .value v.id

/-- `subnetIDForCIDR(cidr)` (`main.go`). -/
def subnetIDForCIDR (api : String → CallReply Block) (cidr : String) : CallOutcome :=
  match api cidr with
  | .fault => .fatal
  | .ok [] => .panicked
  | .ok (s :: _) => .value s.id

/-! ## `fetchSubnets` row handling (`main.go`)

One legacy row carries the decimal-encoded address, the mask, the
description and the (left-joined, possibly absent = 0) VLAN number.  An
address that does not decode is logged at debug level and the row is
skipped with `continue`; a VLAN lookup failure is fatal. -/

/-- One row of the legacy `subnets` query. -/
structure SubnetRow where
  subnet : String
  mask : Int
  description : String
  /-- `sql.NullInt64` zero value when the left join found no VLAN. -/
  vlanNumber : Int := 0
deriving DecidableEq, Repr

/-- The row loop of `fetchSubnets`: builds the batch of subnet records to
migrate, skipping rows whose decimal address does not decode; `none` is a
fatal end of the run (a VLAN number that does not resolve, or a panic in
`vlanIDForNumber`). -/
def fetchSubnetsRows (sectID : Int) (vapi : Int → CallReply VLANRec) :
    List SubnetRow → Option (List Subnet)
  | [] => some []
  | row :: rest =>
    match decimalIPAddrToString row.subnet with
    | none => fetchSubnetsRows sectID vapi rest
    | some strAddr =>
      match (if row.vlanNumber ≠ 0 then vlanIDForNumber vapi row.vlanNumber else .value 0) with
      | .fatal => none
      | .panicked => none
      | .value vlanID =>
        match fetchSubnetsRows sectID vapi rest with
        | none => none
        | some out =>
          some ({ subnetAddress := strAddr, mask := row.mask,
                  description := row.description, vlanID := vlanID,
                  sectionID := sectID } :: out)

/-! ## MigrationPipeline (`main.go`: `addVLANs`, `addSubnets`,
`addAddresses`, `main`)

Create calls are recorded as events; `logrus.Fatalf` on a failed create
exits the process at once, so a phase returns the events it issued plus a
flag saying whether it completed.  The create-call outcomes of the target
system are oracles, and the parent resolution consulted inside the subnet
loop is an oracle from `(SubnetAddress, Mask)` to the identifier
`ParentSubnetIDForCIDR` would return (`0` meaning none found). -/

/-- One create call issued to the target system. -/
inductive Ev where
  | vlanCreate (v : VLAN)
  | subnetCreate (s : Subnet)
  | addrCreate (a : Address)
deriving DecidableEq, Repr

/-- `addVLANs(lans)`: create each VLAN, fatal on the first error. -/
def addVLANs (createOk : VLAN → Bool) : List VLAN → List Ev × Bool
  | [] => ([], true)
  | v :: rest =>
    if createOk v then
      (.vlanCreate v :: (addVLANs createOk rest).1, (addVLANs createOk rest).2)
    else ([.vlanCreate v], false)

/-- The record `addSubnets` passes to `CreateSubnet` for one sorted record
`v`: `if id := ParentSubnetIDForCIDR(...); id != 0 { v.MasterSubnetID = id }`. -/
def subnetToCreate (parentFor : String → Int → Int) (v : Subnet) : Subnet :=
  let id := parentFor v.subnetAddress v.mask
  if id ≠ 0 then { v with masterSubnetID := id } else v

/-- The creation loop of `addSubnets`, over the already-sorted batch. -/
def addSubnetsLoop (parentFor : String → Int → Int) (createOk : Subnet → Bool) :
    List Subnet → List Ev × Bool
  | [] => ([], true)
  | v :: rest =>
    if createOk (subnetToCreate parentFor v) then
      (.subnetCreate (subnetToCreate parentFor v) :: (addSubnetsLoop parentFor createOk rest).1,
        (addSubnetsLoop parentFor createOk rest).2)
    else ([.subnetCreate (subnetToCreate parentFor v)], false)

/-- `addSubnets(nets)`: sort via `SubnetsSorter`, then create in order. -/
def addSubnets (parentFor : String → Int → Int) (createOk : Subnet → Bool)
    (nets : List Subnet) : List Ev × Bool :=
  addSubnetsLoop parentFor createOk (sortSortSubnets nets)

/-- `addAddresses(addrs)`: create each address, fatal on the first error. -/
def addAddresses (createOk : Address → Bool) : List Address → List Ev × Bool
  | [] => ([], true)
  | a :: rest =>
    if createOk a then
      (.addrCreate a :: (addAddresses createOk rest).1, (addAddresses createOk rest).2)
    else ([.addrCreate a], false)

/-- `main`: the three phases in sequence, each aborting the whole run on its
first fatal error (the fetches, which issue no create calls, run between the
phases and are elided — a fatal fetch only cuts the run even shorter). -/
def mainRun (vlanList : List VLAN) (netsList : List Subnet) (addrList : List Address)
    (vlanOk : VLAN → Bool) (parentFor : String → Int → Int)
    (subnetOk : Subnet → Bool) (addrOk : Address → Bool) : List Ev :=
  if (addVLANs vlanOk vlanList).2 then
    if (addSubnets parentFor subnetOk netsList).2 then
      (addVLANs vlanOk vlanList).1 ++ (addSubnets parentFor subnetOk netsList).1 ++
        (addAddresses addrOk addrList).1
    else (addVLANs vlanOk vlanList).1 ++ (addSubnets parentFor subnetOk netsList).1
  else (addVLANs vlanOk vlanList).1

/-! ## Concrete scenarios

Fixed inputs used to instantiate the theorems: the target state
`{10.0.0.0/8 ↦ id 1, 10.10.0.0/16 ↦ id 2}` of the spec's resolver scenario,
the six-subnet ordering scenario of the spec (also the repository's own
sorter test), and a seven-record batch with two records sharing the key
`1.0.0.0/8`. -/

/-- `10.10.2.0` as a 32-bit value. -/
def demoAddr : Nat := 10 * 2 ^ 24 + 10 * 2 ^ 16 + 2 * 2 ^ 8

/-- Registered blocks `10.0.0.0/8` (id 1) and `10.10.0.0/16` (id 2). -/
def demoBlocks : List Block :=
  [⟨1, 10 * 2 ^ 24, 8⟩, ⟨2, 10 * 2 ^ 24 + 10 * 2 ^ 16, 16⟩]

/-- The six subnets of the spec's end-to-end ordering scenario, in input
order. -/
def orderInput : List Subnet :=
  [{ subnetAddress := "10.10.3.0", mask := 24 },
   { subnetAddress := "10.10.1.0", mask := 24 },
   { subnetAddress := "10.0.0.0", mask := 8 },
   { subnetAddress := "172.16.1.0", mask := 24 },
   { subnetAddress := "10.10.4.0", mask := 24 },
   { subnetAddress := "172.16.0.0", mask := 12 }]

/-- The required output order of the scenario. -/
def orderExpected : List Subnet :=
  [{ subnetAddress := "10.0.0.0", mask := 8 },
   { subnetAddress := "10.10.1.0", mask := 24 },
   { subnetAddress := "10.10.3.0", mask := 24 },
   { subnetAddress := "10.10.4.0", mask := 24 },
   { subnetAddress := "172.16.0.0", mask := 12 },
   { subnetAddress := "172.16.1.0", mask := 24 }]

/-- First of two records sharing the sort key `1.0.0.0/8`. -/
def tieFirst : Subnet := { subnetAddress := "1.0.0.0", mask := 8, description := "first" }

/-- Second of two records sharing the sort key `1.0.0.0/8`. -/
def tieSecond : Subnet := { subnetAddress := "1.0.0.0", mask := 8, description := "second" }

/-- A seven-record batch on which the shell-sort pass of `sort.Sort` moves
the element at index 6 in front of index 0, jumping it over its equal-key
partner at index 1. -/
def tieInput : List Subnet :=
  [{ subnetAddress := "9.0.0.0", mask := 8 },
   tieFirst,
   { subnetAddress := "2.0.0.0", mask := 8 },
   { subnetAddress := "3.0.0.0", mask := 8 },
   { subnetAddress := "4.0.0.0", mask := 8 },
   { subnetAddress := "5.0.0.0", mask := 8 },
   tieSecond]

/-- A legacy subnet row holding an IPv4-range decimal address. -/
def rowGood : SubnetRow := { subnet := "167772160", mask := 8, description := "ten-net" }

/-- A legacy subnet row whose decimal address exceeds the 32-bit range (an
IPv6 row in the legacy store). -/
def rowBad : SubnetRow := { subnet := "4294967296", mask := 64, description := "v6" }

/-- An extracted subnet record used to instantiate the frame property. -/
def demoSubnet : Subnet :=
  { subnetAddress := "10.0.0.0", mask := 8, description := "ten-net",
    vlanID := 4, sectionID := 1, masterSubnetID := 3 }

/-! ## Helper lemmas: decimal digit strings -/

theorem digitChar_toNat {d : Nat} (h : d < 10) : (digitChar d).toNat = 48 + d := by
  have hv : (48 + d).isValidChar := Or.inl (by omega)
  simp [digitChar, Char.ofNat, hv, Char.ofNatAux, Char.toNat]
  rfl

theorem isDigitChar_digitChar {d : Nat} (h : d < 10) : isDigitChar (digitChar d) = true := by
  simp only [isDigitChar, digitChar_toNat h, Bool.and_eq_true, decide_eq_true_eq]
  omega

theorem natCharsAux_congr {f g n : Nat} (hf : n < f) (hg : n < g) :
    natCharsAux f n = natCharsAux g n := by
  induction f generalizing g n with
  | zero => omega
  | succ f ih =>
    cases g with
    | zero => omega
    | succ g =>
      simp only [natCharsAux]
      split
      · rfl
      · next h =>
        rw [ih (show n / 10 < f by omega) (show n / 10 < g by omega)]

theorem natChars_eq (n : Nat) :
    natChars n = if n < 10 then [digitChar n]
      else natChars (n / 10) ++ [digitChar (n % 10)] := by
  show natCharsAux (n + 1) n = _
  simp only [natCharsAux]
  split
  · rfl
  · next h =>
    rw [show natChars (n / 10) = natCharsAux (n / 10 + 1) (n / 10) from rfl,
      natCharsAux_congr (show n / 10 < n by omega) (Nat.lt_succ_self _)]

theorem natChars_ne_nil (n : Nat) : natChars n ≠ [] := by
  rw [natChars_eq]
  split <;> simp

theorem natChars_digits (n : Nat) : ∀ c ∈ natChars n, isDigitChar c = true := by
  induction n using Nat.strong_induction_on with
  | _ n ih =>
    rw [natChars_eq]
    split
    · next h =>
      intro c hc
      rw [List.mem_singleton] at hc
      exact hc ▸ isDigitChar_digitChar h
    · next h =>
      intro c hc
      rcases List.mem_append.mp hc with h1 | h2
      · exact ih (n / 10) (by omega) c h1
      · rw [List.mem_singleton] at h2
        exact h2 ▸ isDigitChar_digitChar (by omega)

theorem natChars_ne_dot (n : Nat) : '.' ∉ natChars n := by
  intro hmem
  have := natChars_digits n '.' hmem
  simp [isDigitChar] at this

theorem digitsVal_append_one (xs : List Char) (c : Char) :
    digitsVal (xs ++ [c]) = digitsVal xs * 10 + (c.toNat - 48) := by
  simp only [digitsVal, List.foldl_append, List.foldl_cons, List.foldl_nil]

theorem digitsVal_natChars (n : Nat) : digitsVal (natChars n) = n := by
  induction n using Nat.strong_induction_on with
  | _ n ih =>
    rw [natChars_eq]
    split
    · next h =>
      simp only [digitsVal, List.foldl_cons, List.foldl_nil, digitChar_toNat h]
      omega
    · next h =>
      rw [digitsVal_append_one, ih (n / 10) (by omega), digitChar_toNat (by omega)]
      omega

theorem goParseUint32_natStr {n : Nat} (h : n < 2 ^ 32) :
    goParseUint32 (natStr n) = some n := by
  have hd : (natStr n).data = natChars n := rfl
  rw [goParseUint32, if_pos, hd, digitsVal_natChars]
  rw [hd, digitsVal_natChars]
  refine ⟨natChars_ne_nil n, ?_, h⟩
  exact List.all_eq_true.mpr (natChars_digits n)

theorem goParseUint32_natStr_overflow {n : Nat} (h : 2 ^ 32 ≤ n) :
    goParseUint32 (natStr n) = none := by
  have hd : (natStr n).data = natChars n := rfl
  rw [goParseUint32, if_neg]
  rw [hd, digitsVal_natChars]
  push_neg
  intro _ _
  omega

/-! ## Helper lemmas: dotted-quad splitting -/

theorem splitDots_no_dot {xs : List Char} (h : '.' ∉ xs) : splitDots xs = [xs] := by
  induction xs with
  | nil => rfl
  | cons c cs ih =>
    simp only [List.mem_cons, not_or] at h
    have hc : ¬ c = '.' := fun hh => h.1 hh.symm
    simp only [splitDots, if_neg hc, ih h.2]

theorem splitDots_append {xs rest : List Char} (h : '.' ∉ xs) :
    splitDots (xs ++ '.' :: rest) = xs :: splitDots rest := by
  induction xs with
  | nil => simp [splitDots]
  | cons c cs ih =>
    simp only [List.mem_cons, not_or] at h
    have hc : ¬ c = '.' := fun hh => h.1 hh.symm
    have hrec : splitDots (cs ++ '.' :: rest) = cs :: splitDots rest := ih h.2
    simp only [List.cons_append, splitDots, if_neg hc]
    rw [show cs.append ('.' :: rest) = cs ++ '.' :: rest from rfl, hrec]

theorem data_natStr (n : Nat) : (natStr n).data = natChars n := rfl

theorem data_dot : ("." : String).data = ['.'] := rfl

/-! ## Claim C6: the address codec round-trips -/

/-- **C6.**  For every decimal string `d` that parses as an unsigned 32-bit
integer (value `v`), `decimalIPAddrToString d` succeeds, emits `v` as four
big-endian octets joined by dots, and re-encoding the resulting dotted quad
back to a 32-bit integer yields `v` again. -/
theorem decimalIPAddrToString_roundtrip (d : String) (v : Nat)
    (h : goParseUint32 d = some v) :
    decimalIPAddrToString d = some (ipString v) ∧
    ipString v = natStr (v / 2 ^ 24 % 2 ^ 8) ++ "." ++ natStr (v / 2 ^ 16 % 2 ^ 8) ++ "." ++
      natStr (v / 2 ^ 8 % 2 ^ 8) ++ "." ++ natStr (v % 2 ^ 8) ∧
    encodeDotted (ipString v) = some v := by
  have hv : v < 2 ^ 32 := by
    unfold goParseUint32 at h
    split at h
    · next hcond =>
      cases h
      exact hcond.2.2
    · cases h
  refine ⟨?_, rfl, ?_⟩
  · unfold decimalIPAddrToString
    rw [h]
  · have hdata : (ipString v).data =
        natChars (v / 2 ^ 24 % 2 ^ 8) ++ '.' :: (natChars (v / 2 ^ 16 % 2 ^ 8) ++
          '.' :: (natChars (v / 2 ^ 8 % 2 ^ 8) ++ '.' :: natChars (v % 2 ^ 8))) := by
      simp only [ipString, String.data_append, data_natStr, data_dot, List.append_assoc,
        List.singleton_append, List.cons_append, List.nil_append]
    have hsplit : splitDots (ipString v).data =
        [natChars (v / 2 ^ 24 % 2 ^ 8), natChars (v / 2 ^ 16 % 2 ^ 8),
          natChars (v / 2 ^ 8 % 2 ^ 8), natChars (v % 2 ^ 8)] := by
      rw [hdata, splitDots_append (natChars_ne_dot _), splitDots_append (natChars_ne_dot _),
        splitDots_append (natChars_ne_dot _), splitDots_no_dot (natChars_ne_dot _)]
    unfold encodeDotted
    rw [hsplit]
    simp only [quadVal]
    rw [if_pos ⟨natChars_ne_nil _, natChars_ne_nil _, natChars_ne_nil _, natChars_ne_nil _,
      List.all_eq_true.mpr (natChars_digits _), List.all_eq_true.mpr (natChars_digits _),
      List.all_eq_true.mpr (natChars_digits _), List.all_eq_true.mpr (natChars_digits _)⟩]
    rw [digitsVal_natChars, digitsVal_natChars, digitsVal_natChars, digitsVal_natChars]
    have e8 : (2 : Nat) ^ 8 = 256 := by norm_num
    have e16 : (2 : Nat) ^ 16 = 65536 := by norm_num
    have e24 : (2 : Nat) ^ 24 = 16777216 := by norm_num
    have e32 : (2 : Nat) ^ 32 = 4294967296 := by norm_num
    rw [e32] at hv
    rw [e8, e16, e24]
    exact Option.some_inj.mpr (by omega)

/-- **C6 witness**: the round-trip at the concrete decimal string
`"167772160"` (= `10.0.0.0`). -/
theorem decimalIPAddrToString_roundtrip_witness :
    goParseUint32 "167772160" = some 167772160 ∧
    decimalIPAddrToString "167772160" = some (ipString 167772160) ∧
    ipString 167772160 = "10.0.0.0" ∧
    encodeDotted (ipString 167772160) = some 167772160 := by
  refine ⟨by decide, ?_, by decide, ?_⟩
  · exact (decimalIPAddrToString_roundtrip "167772160" 167772160 (by decide)).1
  · exact (decimalIPAddrToString_roundtrip "167772160" 167772160 (by decide)).2.2

/-! ## Claim C7: invalid addresses are rejected, and the row is skipped -/

/-- **C7.**  Every input that is not a valid unsigned 32-bit decimal — in
particular every decimal string beyond the 32-bit range — makes
`decimalIPAddrToString` return an error and no dotted quad, and
`fetchSubnets` treats that error as skip-this-record: the row is dropped and
the remaining rows are processed as if it had not been there. -/
theorem decimalIPAddrToString_invalid_skips :
    (∀ d : String, goParseUint32 d = none → decimalIPAddrToString d = none) ∧
    (∀ n : Nat, 2 ^ 32 ≤ n → decimalIPAddrToString (natStr n) = none) ∧
    (∀ (sectID : Int) (vapi : Int → CallReply VLANRec) (pre post : List SubnetRow)
        (row : SubnetRow), decimalIPAddrToString row.subnet = none →
      fetchSubnetsRows sectID vapi (pre ++ row :: post) =
        fetchSubnetsRows sectID vapi (pre ++ post)) := by
  refine ⟨?_, ?_, ?_⟩
  · intro d hd
    unfold decimalIPAddrToString
    rw [hd]
  · intro n hn
    unfold decimalIPAddrToString
    rw [goParseUint32_natStr_overflow hn]
  · intro sectID vapi pre post row hrow
    induction pre with
    | nil =>
      simp only [List.nil_append, fetchSubnetsRows, hrow]
    | cons r pre ih =>
      simp only [List.cons_append, fetchSubnetsRows]
      rw [show pre.append (row :: post) = pre ++ row :: post from rfl,
        show pre.append post = pre ++ post from rfl, ih]

/-- **C7 witness**: `"4294967296"` (= 2³²) is rejected, and a batch
containing that row migrates exactly like the batch without it. -/
theorem decimalIPAddrToString_invalid_skips_witness :
    goParseUint32 "4294967296" = none ∧
    decimalIPAddrToString "4294967296" = none ∧
    (2 : Nat) ^ 32 ≤ 4294967296 ∧
    decimalIPAddrToString (natStr 4294967296) = none ∧
    decimalIPAddrToString rowBad.subnet = none ∧
    fetchSubnetsRows 1 (fun _ => .ok [⟨7, 5⟩]) [rowGood, rowBad] =
      fetchSubnetsRows 1 (fun _ => .ok [⟨7, 5⟩]) [rowGood] := by
  refine ⟨by decide, ?_, by norm_num, ?_, by decide, ?_⟩
  · exact decimalIPAddrToString_invalid_skips.1 _ (by decide)
  · exact decimalIPAddrToString_invalid_skips.2.1 _ (by norm_num)
  · exact decimalIPAddrToString_invalid_skips.2.2 1 _ [rowGood] [] rowBad (by decide)

/-! ## Claim C3: the ordering is lexicographic on `"<address>/<mask>"` -/

/-- **C3.**  `SubnetsSorter.Less` places `i` before `j` exactly when the
string `"<address>/<mask>"` of `i` is byte-wise lexicographically smaller
than that of `j`; consequently the six-subnet scenario input is ordered to
the expected sequence. -/
theorem subnetsSorterLess_lex_and_order :
    (∀ x y : Subnet, subnetsSorterLess x y =
      byteLtList (strBytes (x.subnetAddress ++ "/" ++ toString x.mask))
        (strBytes (y.subnetAddress ++ "/" ++ toString y.mask))) ∧
    sortSortSubnets orderInput = orderExpected :=
  ⟨fun _ _ => rfl, by decide⟩

/-! ## Claim C2: stability of the ordering

The ordering of `addSubnets` is Go's `sort.Sort`, which is not a stable
sort: on a batch where the shell-sort pass (gap 6) moves an element across
its equal-key partner, two records with identical address and mask come out
in the opposite of their input order. -/

/-- **C2 counterexample.**  In `tieInput` the records `tieFirst` and
`tieSecond` have identical address and mask (same sort key) and appear in
this order (indices 1 and 6); after `sort.Sort` they appear in the opposite
order (indices 1 and 0): the ordering applied before creation is not a
stable sort. -/
theorem sortSort_unstable_counterexample :
    subnetKey tieFirst = subnetKey tieSecond ∧
    tieFirst ≠ tieSecond ∧
    tieInput.indexOf tieFirst = 1 ∧
    tieInput.indexOf tieSecond = 6 ∧
    (sortSortSubnets tieInput).indexOf tieSecond = 0 ∧
    (sortSortSubnets tieInput).indexOf tieFirst = 1 :=
  ⟨by decide, by decide, by decide, by decide, by decide, by decide⟩

/-- **C2 amended.**  The ordering applied before creation (`sort.Sort` over
`SubnetsSorter`) is not a stable sort: there are subnet lists in which two
records with identical address and mask do not keep their original relative
order in the output. -/
theorem sortSort_not_stable :
    ∃ (l : List Subnet) (x y : Subnet),
      subnetKey x = subnetKey y ∧ x ≠ y ∧
      l.indexOf x < l.indexOf y ∧
      (sortSortSubnets l).indexOf y < (sortSortSubnets l).indexOf x :=
  ⟨tieInput, tieFirst, tieSecond, by decide, by decide, by decide, by decide⟩

/-! ## Helper lemmas: the probe loop over a target state -/

theorem lookupByCIDR_notFound_iff {st : List Block} {net mask : Nat} :
    lookupByCIDR st net mask = .notFound ↔
      st.filter (fun b => b.addr == net && b.mask == mask) = [] := by
  unfold lookupByCIDR
  cases h : st.filter (fun b => b.addr == net && b.mask == mask) with
  | nil => simp
  | cons x xs => simp

theorem lookupByCIDR_ok {st : List Block} {net mask : Nat} {l : List Block}
    (h : lookupByCIDR st net mask = .ok l) :
    st.filter (fun b => b.addr == net && b.mask == mask) = l := by
  unfold lookupByCIDR at h
  cases hf : st.filter (fun b => b.addr == net && b.mask == mask) with
  | nil =>
    rw [hf] at h
    exact LookupReply.noConfusion h
  | cons x xs =>
    rw [hf] at h
    injection h

theorem probeLoop_found_narrowest {st : List Block} (addr : Nat) :
    ∀ (k : Nat) (id : Int), probeLoop (lookupByCIDR st) addr k = .found id →
      ∃ b ∈ st, b.id = id ∧ 8 ≤ b.mask ∧ b.mask ≤ k + 7 ∧ containsAddr b addr ∧
        ∀ b' ∈ st, containsAddr b' addr → b'.mask ≤ k + 7 → b'.mask ≤ b.mask := by
  intro k
  induction k with
  | zero =>
    intro id h
    exact absurd h (by simp [probeLoop])
  | succ k ih =>
    intro id h
    simp only [probeLoop] at h
    by_cases h32 : k + 8 ≤ 32
    · rw [if_pos h32] at h
      cases hrep : lookupByCIDR st (netAddr addr (k + 8)) (k + 8) with
      | ok l =>
        rw [hrep] at h
        cases l with
        | nil => exact ResolveOutcome.noConfusion h
        | cons s t =>
          injection h with hid
          have hsf : s ∈ st.filter
              (fun b => b.addr == netAddr addr (k + 8) && b.mask == k + 8) := by
            rw [lookupByCIDR_ok hrep]
            exact List.mem_cons_self _ _
          obtain ⟨hmem, hpred⟩ := List.mem_filter.mp hsf
          rw [Bool.and_eq_true, beq_iff_eq, beq_iff_eq] at hpred
          refine ⟨s, hmem, hid, by omega, by omega, ?_, ?_⟩
          · unfold containsAddr
            rw [hpred.2, hpred.1]
          · intro b' _ _ hle'
            omega
      | notFound =>
        rw [hrep] at h
        obtain ⟨b, hb, hid, h8, hle, hcont, hmax⟩ := ih id h
        refine ⟨b, hb, hid, h8, by omega, hcont, ?_⟩
        intro b' hb' hcont' hle'
        rcases Nat.lt_or_ge (k + 7) b'.mask with hgt | hle''
        · exfalso
          have hm8 : b'.mask = k + 8 := by omega
          have hbf : b' ∈ st.filter
              (fun b => b.addr == netAddr addr (k + 8) && b.mask == k + 8) := by
            refine List.mem_filter.mpr ⟨hb', ?_⟩
            rw [Bool.and_eq_true, beq_iff_eq, beq_iff_eq]
            exact ⟨hm8 ▸ hcont', hm8⟩
          rw [lookupByCIDR_notFound_iff.mp hrep] at hbf
          exact absurd hbf (List.not_mem_nil _)
        · exact hmax b' hb' hcont' hle''
      | fault =>
        rw [hrep] at h
        exact ResolveOutcome.noConfusion h
    · rw [if_neg h32] at h
      exact ResolveOutcome.noConfusion h

/-! ## Claim C1: the resolved parent is the narrowest containing block -/

/-- **C1.**  Over any well-formed target state, if `ParentSubnetIDForCIDR`
returns `found` (a non-zero identifier), then the identifier belongs to a
registered block whose mask is strictly smaller than the subnet's mask `m`,
whose prefix contains the subnet's address, and such that no registered
block containing the address has a mask strictly between that block's mask
and `m` (the first match of the widening probe sequence is the narrowest
ancestor). -/
theorem parentSubnetID_narrowest {st : List Block} (hwf : WFState st)
    (addr : Nat) (m : Int) (hm : 8 < m) (id : Int)
    (hres : parentSubnetIDForCIDR (lookupByCIDR st) addr m = .found id) :
    id ≠ 0 ∧ ∃ b ∈ st, b.id = id ∧ (b.mask : Int) < m ∧ containsAddr b addr ∧
      ∀ b' ∈ st, containsAddr b' addr → (b'.mask : Int) < m → b'.mask ≤ b.mask := by
  obtain ⟨b, hb, hid, h8, hle, hcont, hmax⟩ :=
    probeLoop_found_narrowest addr (m - 8).toNat id hres
  refine ⟨hid ▸ (hwf b hb).1, b, hb, hid, by omega, hcont, ?_⟩
  intro b' hb' hcont' hlt
  exact hmax b' hb' hcont' (by omega)

/-- **C1 witness**: with `10.0.0.0/8 ↦ id 1` and `10.10.0.0/16 ↦ id 2`
registered, resolving `10.10.2.0/24` returns `found 2` — the `/16`, not the
`/8` — and the theorem applies to that state and result. -/
theorem parentSubnetID_narrowest_witness :
    WFState demoBlocks ∧
    parentSubnetIDForCIDR (lookupByCIDR demoBlocks) demoAddr 24 = .found 2 ∧
    ((2 : Int) ≠ 0 ∧ ∃ b ∈ demoBlocks, b.id = 2 ∧ (b.mask : Int) < 24 ∧
      containsAddr b demoAddr ∧
      ∀ b' ∈ demoBlocks, containsAddr b' demoAddr → (b'.mask : Int) < 24 →
        b'.mask ≤ b.mask) := by
  have hwf : WFState demoBlocks := by unfold WFState; decide
  exact ⟨hwf, by decide,
    parentSubnetID_narrowest hwf demoAddr 24 (by norm_num) 2 (by decide)⟩

/-! ## Claim C4: the probe floor is mask 8 -/

/-- **C4.**  The resolver never issues a lookup with a probe mask below 8;
for a subnet with mask at most 8 it returns no-parent immediately with zero
lookup calls; and if every probe of a subnet (mask within the data model's
range) reports not-found, it returns no-parent. -/
theorem probe_floor_eight :
    (∀ (api : SubnetLookup) (addr k n : Nat), n ∈ probeCalls api addr k → 8 ≤ n) ∧
    (∀ (api : SubnetLookup) (addr : Nat) (mask : Int), mask ≤ 8 →
      parentSubnetIDForCIDR api addr mask = .noParent ∧
      resolveCalls api addr mask = []) ∧
    (∀ (api : SubnetLookup) (addr : Nat) (mask : Int), mask ≤ 32 →
      (∀ n : Nat, 8 ≤ n → (n : Int) ≤ mask - 1 → api (netAddr addr n) n = .notFound) →
      parentSubnetIDForCIDR api addr mask = .noParent) := by
  refine ⟨?_, ?_, ?_⟩
  · intro api addr k
    induction k with
    | zero =>
      intro n h
      exact absurd h (List.not_mem_nil n)
    | succ k ih =>
      intro n h
      simp only [probeCalls] at h
      by_cases h32 : k + 8 ≤ 32
      · rw [if_pos h32] at h
        cases hrep : api (netAddr addr (k + 8)) (k + 8) with
        | ok l =>
          rw [hrep] at h
          rw [List.mem_singleton] at h
          omega
        | notFound =>
          rw [hrep] at h
          rcases List.mem_cons.mp h with rfl | hm
          · omega
          · exact ih n hm
        | fault =>
          rw [hrep] at h
          rw [List.mem_singleton] at h
          omega
      · rw [if_neg h32] at h
        exact absurd h (List.not_mem_nil n)
  · intro api addr mask hm
    have h0 : (mask - 8).toNat = 0 := by omega
    constructor
    · unfold parentSubnetIDForCIDR
      rw [h0]
      rfl
    · unfold resolveCalls
      rw [h0]
      rfl
  · intro api addr mask hm hnf
    unfold parentSubnetIDForCIDR
    have hall : ∀ k, k ≤ (mask - 8).toNat → k + 8 ≤ 33 →
        probeLoop api addr k = .noParent := by
      intro k
      induction k with
      | zero =>
        intro _ _
        rfl
      | succ k ih =>
        intro hk hk33
        simp only [probeLoop]
        rw [if_pos (by omega), hnf (k + 8) (by omega) (by omega)]
        exact ih (by omega) (by omega)
    exact hall _ (Nat.le_refl _) (by omega)

/-- **C4 witness**: a mask-8 subnet resolves to no-parent with zero calls,
every call in a mask-24 run probes a mask of at least 8, and an
always-not-found target yields no-parent. -/
theorem probe_floor_eight_witness :
    parentSubnetIDForCIDR (lookupByCIDR demoBlocks) demoAddr 8 = .noParent ∧
    resolveCalls (lookupByCIDR demoBlocks) demoAddr 8 = [] ∧
    (16 ∈ resolveCalls (lookupByCIDR demoBlocks) demoAddr 24 → 8 ≤ 16) ∧
    parentSubnetIDForCIDR (fun _ _ => .notFound) demoAddr 24 = .noParent := by
  refine ⟨(probe_floor_eight.2.1 _ demoAddr 8 (by norm_num)).1,
    (probe_floor_eight.2.1 _ demoAddr 8 (by norm_num)).2,
    probe_floor_eight.1 (lookupByCIDR demoBlocks) demoAddr ((24 : Int) - 8).toNat 16,
    probe_floor_eight.2.2 _ demoAddr 24 (by norm_num) (fun _ _ _ => rfl)⟩

/-! ## Claim C5: the three probe-outcome cases -/

/-- **C5.**  At any probe mask `n` (`8 ≤ n ≤ 32`), the lookup outcome is
handled by exactly one of three cases: a successful lookup ends the
resolution with the first result's identifier (that probe is the last call);
the specific not-found reply continues the loop at mask `n - 1`; any other
failure ends the run fatally with no retry (that probe is the last call). -/
theorem probe_outcome_cases (api : SubnetLookup) (addr n : Nat)
    (h8 : 8 ≤ n) (h32 : n ≤ 32) :
    (∀ s l, api (netAddr addr n) n = .ok (s :: l) →
      probeLoop api addr (n - 7) = .found s.id ∧
      probeCalls api addr (n - 7) = [n]) ∧
    (api (netAddr addr n) n = .notFound →
      probeLoop api addr (n - 7) = probeLoop api addr (n - 8) ∧
      probeCalls api addr (n - 7) = n :: probeCalls api addr (n - 8)) ∧
    (api (netAddr addr n) n = .fault →
      probeLoop api addr (n - 7) = .fatal ∧
      probeCalls api addr (n - 7) = [n]) := by
  obtain ⟨k, rfl⟩ : ∃ k, n = k + 8 := ⟨n - 8, by omega⟩
  have e1 : k + 8 - 7 = k + 1 := by omega
  have e2 : k + 8 - 8 = k := by omega
  rw [e1, e2]
  refine ⟨?_, ?_, ?_⟩
  · intro s l hrep
    simp only [probeLoop, probeCalls]
    rw [if_pos (by omega), if_pos (by omega), hrep]
    exact ⟨rfl, rfl⟩
  · intro hrep
    simp only [probeLoop, probeCalls]
    rw [if_pos (by omega), if_pos (by omega), hrep]
    exact ⟨rfl, rfl⟩
  · intro hrep
    simp only [probeLoop, probeCalls]
    rw [if_pos (by omega), if_pos (by omega), hrep]
    exact ⟨rfl, rfl⟩

/-- **C5 witness**: the three cases at probe mask 24, each against a
target system exhibiting that reply. -/
theorem probe_outcome_cases_witness :
    (probeLoop (fun _ _ => .ok [⟨9, 0, 0⟩]) 0 (24 - 7) = .found 9 ∧
      probeCalls (fun _ _ => .ok [⟨9, 0, 0⟩]) 0 (24 - 7) = [24]) ∧
    (probeLoop (fun _ _ => .notFound) 0 (24 - 7) =
        probeLoop (fun _ _ => .notFound) 0 (24 - 8) ∧
      probeCalls (fun _ _ => .notFound) 0 (24 - 7) =
        24 :: probeCalls (fun _ _ => .notFound) 0 (24 - 8)) ∧
    (probeLoop (fun _ _ => .fault) 0 (24 - 7) = .fatal ∧
      probeCalls (fun _ _ => .fault) 0 (24 - 7) = [24]) :=
  ⟨(probe_outcome_cases (fun _ _ => .ok [⟨9, 0, 0⟩]) 0 24 (by norm_num)
      (by norm_num)).1 ⟨9, 0, 0⟩ [] rfl,
    (probe_outcome_cases (fun _ _ => .notFound) 0 24 (by norm_num)
      (by norm_num)).2.1 rfl,
    (probe_outcome_cases (fun _ _ => .fault) 0 24 (by norm_num)
      (by norm_num)).2.2 rfl⟩

/-! ## Claim C9: `result[0]` indexing after a successful lookup -/

/-- **C9.**  `ParentSubnetIDForCIDR`, `vlanIDForNumber` and
`subnetIDForCIDR` all index `result[0]` whenever the lookup returns
successfully: under the precondition that a successful lookup always
returns a non-empty result list, none of them can panic; without it, a
success carrying an empty list crashes each of them. -/
theorem lookup_head_indexing :
    (∀ (api : SubnetLookup) (addr k : Nat),
      (∀ x y l, api x y = .ok l → l ≠ []) →
      probeLoop api addr k ≠ .panicked) ∧
    (∀ (vapi : Int → CallReply VLANRec) (n : Int),
      (∀ m l, vapi m = .ok l → l ≠ []) →
      vlanIDForNumber vapi n ≠ .panicked) ∧
    (∀ (sapi : String → CallReply Block) (c : String),
      (∀ s l, sapi s = .ok l → l ≠ []) →
      subnetIDForCIDR sapi c ≠ .panicked) ∧
    probeLoop (fun _ _ => .ok []) 0 1 = .panicked ∧
    vlanIDForNumber (fun _ => .ok []) 0 = .panicked ∧
    subnetIDForCIDR (fun _ => .ok []) "" = .panicked := by
  refine ⟨?_, ?_, ?_, by decide, rfl, rfl⟩
  · intro api addr k hne
    induction k with
    | zero => simp [probeLoop]
    | succ k ih =>
      simp only [probeLoop]
      by_cases h32 : k + 8 ≤ 32
      · rw [if_pos h32]
        cases hrep : api (netAddr addr (k + 8)) (k + 8) with
        | ok l =>
          cases l with
          | nil => exact absurd rfl (hne _ _ [] hrep)
          | cons s t => simp
        | notFound => exact ih
        | fault => simp
      · rw [if_neg h32]
        simp
  · intro vapi n hne
    unfold vlanIDForNumber
    cases hrep : vapi n with
    | ok l =>
      cases l with
      | nil => exact absurd rfl (hne _ [] hrep)
      | cons v t => simp
    | fault => simp
  · intro sapi c hne
    unfold subnetIDForCIDR
    cases hrep : sapi c with
    | ok l =>
      cases l with
      | nil => exact absurd rfl (hne _ [] hrep)
      | cons s t => simp
    | fault => simp

/-- **C9 witness**: the no-panic guarantee applied to a target system whose
successful lookups are all non-empty, alongside the panicking empty-success
cases of the theorem itself. -/
theorem lookup_head_indexing_witness :
    probeLoop (lookupByCIDR demoBlocks) demoAddr 17 ≠ .panicked ∧
    vlanIDForNumber (fun _ => .ok [⟨4, 100⟩]) 100 ≠ .panicked ∧
    subnetIDForCIDR (fun _ => .ok [⟨2, 0, 16⟩]) "10.10.0.0/16" ≠ .panicked := by
  refine ⟨lookup_head_indexing.1 _ demoAddr 17 ?_,
    lookup_head_indexing.2.1 _ 100 ?_,
    lookup_head_indexing.2.2.1 _ "10.10.0.0/16" ?_⟩
  · intro x y l h
    intro hl
    rw [hl] at h
    have hnf : lookupByCIDR demoBlocks x y = .notFound :=
      lookupByCIDR_notFound_iff.mpr (lookupByCIDR_ok h)
    rw [h] at hnf
    exact LookupReply.noConfusion hnf
  · intro m l h
    injection h with h'
    rw [← h']
    simp
  · intro s l h
    injection h with h'
    rw [← h']
    simp

/-! ## Helper lemmas: the events each phase issues -/

theorem addVLANs_events (createOk : VLAN → Bool) :
    ∀ l, ∀ e ∈ (addVLANs createOk l).1, ∃ v, e = .vlanCreate v := by
  intro l
  induction l with
  | nil =>
    intro e h
    exact absurd h (List.not_mem_nil e)
  | cons v rest ih =>
    intro e h
    simp only [addVLANs] at h
    split at h
    · rcases List.mem_cons.mp h with rfl | hm
      · exact ⟨v, rfl⟩
      · exact ih e hm
    · rw [List.mem_singleton] at h
      exact ⟨v, h⟩

theorem addSubnetsLoop_events (parentFor : String → Int → Int)
    (createOk : Subnet → Bool) :
    ∀ l, ∀ e ∈ (addSubnetsLoop parentFor createOk l).1,
      ∃ v ∈ l, e = .subnetCreate (subnetToCreate parentFor v) := by
  intro l
  induction l with
  | nil =>
    intro e h
    exact absurd h (List.not_mem_nil e)
  | cons v rest ih =>
    intro e h
    simp only [addSubnetsLoop] at h
    split at h
    · rcases List.mem_cons.mp h with rfl | hm
      · exact ⟨v, List.mem_cons_self v rest, rfl⟩
      · obtain ⟨w, hw, hwe⟩ := ih e hm
        exact ⟨w, List.mem_cons_of_mem v hw, hwe⟩
    · rw [List.mem_singleton] at h
      exact ⟨v, List.mem_cons_self v rest, h⟩

theorem addAddresses_events (createOk : Address → Bool) :
    ∀ l, ∀ e ∈ (addAddresses createOk l).1, ∃ a, e = .addrCreate a := by
  intro l
  induction l with
  | nil =>
    intro e h
    exact absurd h (List.not_mem_nil e)
  | cons a rest ih =>
    intro e h
    simp only [addAddresses] at h
    split at h
    · rcases List.mem_cons.mp h with rfl | hm
      · exact ⟨a, rfl⟩
      · exact ih e hm
    · rw [List.mem_singleton] at h
      exact ⟨a, h⟩

/-! ## Claim C8: three strictly sequential phases, fatal stops the run -/

/-- **C8.**  The pipeline issues all VLAN creations, then all subnet
creations, then all address creations, in that order; and a fatal error
during the VLAN phase prevents the subnet and the address phase from
starting — after it the run's events are exactly the VLAN-phase events, and
no subnet or address create call occurs among them. -/
theorem pipeline_sequential (vl : List VLAN) (nl : List Subnet) (al : List Address)
    (vlanOk : VLAN → Bool) (parentFor : String → Int → Int)
    (subnetOk : Subnet → Bool) (addrOk : Address → Bool) :
    (∃ e1 e2 e3, mainRun vl nl al vlanOk parentFor subnetOk addrOk = e1 ++ e2 ++ e3 ∧
      (∀ e ∈ e1, ∃ v, e = .vlanCreate v) ∧
      (∀ e ∈ e2, ∃ s, e = .subnetCreate s) ∧
      (∀ e ∈ e3, ∃ a, e = .addrCreate a)) ∧
    ((addVLANs vlanOk vl).2 = false →
      mainRun vl nl al vlanOk parentFor subnetOk addrOk = (addVLANs vlanOk vl).1 ∧
      ∀ e ∈ mainRun vl nl al vlanOk parentFor subnetOk addrOk,
        ∃ v, e = .vlanCreate v) := by
  have hsub : ∀ e ∈ (addSubnets parentFor subnetOk nl).1, ∃ s, e = .subnetCreate s := by
    intro e he
    obtain ⟨w, _, hw⟩ := addSubnetsLoop_events parentFor subnetOk (sortSortSubnets nl) e he
    exact ⟨_, hw⟩
  constructor
  · unfold mainRun
    by_cases h1 : (addVLANs vlanOk vl).2
    · rw [if_pos h1]
      by_cases h2 : (addSubnets parentFor subnetOk nl).2
      · rw [if_pos h2]
        exact ⟨_, _, _, rfl, addVLANs_events vlanOk vl, hsub,
          addAddresses_events addrOk al⟩
      · rw [if_neg h2]
        refine ⟨_, _, [], ?_, addVLANs_events vlanOk vl, hsub, ?_⟩
        · rw [List.append_nil]
        · intro e he
          exact absurd he (List.not_mem_nil e)
    · rw [if_neg h1]
      refine ⟨_, [], [], ?_, addVLANs_events vlanOk vl, ?_, ?_⟩
      · rw [List.append_nil, List.append_nil]
      · intro e he
        exact absurd he (List.not_mem_nil e)
      · intro e he
        exact absurd he (List.not_mem_nil e)
  · intro h1
    have hmain : mainRun vl nl al vlanOk parentFor subnetOk addrOk =
        (addVLANs vlanOk vl).1 := by
      unfold mainRun
      rw [if_neg (by simp [h1])]
    refine ⟨hmain, ?_⟩
    rw [hmain]
    exact addVLANs_events vlanOk vl

/-- **C8 witness**: a single VLAN whose creation the target rejects — the
run's event list is exactly that one VLAN create call; no subnet or address
is ever created. -/
theorem pipeline_sequential_witness :
    (addVLANs (fun _ => false) [{ name := "a", number := 7 }]).2 = false ∧
    mainRun [{ name := "a", number := 7 }] [demoSubnet] [{ ipAddress := "10.0.0.1" }]
        (fun _ => false) (fun _ _ => 0) (fun _ => true) (fun _ => true) =
      (addVLANs (fun _ => false) [{ name := "a", number := 7 }]).1 ∧
    ∀ e ∈ mainRun [{ name := "a", number := 7 }] [demoSubnet] [{ ipAddress := "10.0.0.1" }]
        (fun _ => false) (fun _ _ => 0) (fun _ => true) (fun _ => true),
      ∃ v, e = .vlanCreate v :=
  ⟨by decide,
    (pipeline_sequential [{ name := "a", number := 7 }] [demoSubnet]
      [{ ipAddress := "10.0.0.1" }] (fun _ => false) (fun _ _ => 0)
      (fun _ => true) (fun _ => true)).2 (by decide)⟩

/-! ## Claim C10: the subnet phase only sets `MasterSubnetID` -/

/-- **C10.**  Every record the subnet phase passes to `CreateSubnet` is one
of the sorted extracted records with, at most, its `MasterSubnetID` changed:
that field is set exactly when parent resolution returns a non-zero
identifier, and `SubnetAddress`, `Mask`, `Description`, `VLANID` and
`SectionID` (and the untouched `ID`) pass through unchanged. -/
theorem subnet_create_frame (parentFor : String → Int → Int)
    (createOk : Subnet → Bool) (nets : List Subnet) :
    (∀ e ∈ (addSubnets parentFor createOk nets).1,
      ∃ v ∈ sortSortSubnets nets, e = .subnetCreate (subnetToCreate parentFor v)) ∧
    (∀ v : Subnet,
      (subnetToCreate parentFor v).subnetAddress = v.subnetAddress ∧
      (subnetToCreate parentFor v).mask = v.mask ∧
      (subnetToCreate parentFor v).description = v.description ∧
      (subnetToCreate parentFor v).vlanID = v.vlanID ∧
      (subnetToCreate parentFor v).sectionID = v.sectionID ∧
      (subnetToCreate parentFor v).id = v.id ∧
      (parentFor v.subnetAddress v.mask ≠ 0 →
        (subnetToCreate parentFor v).masterSubnetID = parentFor v.subnetAddress v.mask) ∧
      (parentFor v.subnetAddress v.mask = 0 →
        (subnetToCreate parentFor v).masterSubnetID = v.masterSubnetID)) := by
  constructor
  · exact addSubnetsLoop_events parentFor createOk (sortSortSubnets nets)
  · intro v
    by_cases h : parentFor v.subnetAddress v.mask = 0
    · simp [subnetToCreate, h]
    · simp [subnetToCreate, h]

/-- **C10 witness**: the frame property at a concrete record, once with a
resolver returning id 5 (only `MasterSubnetID` changes, to 5) and once with
a resolver returning 0 (the record is passed through untouched). -/
theorem subnet_create_frame_witness :
    (subnetToCreate (fun _ _ => 5) demoSubnet).masterSubnetID = 5 ∧
    (subnetToCreate (fun _ _ => 5) demoSubnet).subnetAddress = demoSubnet.subnetAddress ∧
    (subnetToCreate (fun _ _ => 5) demoSubnet).description = demoSubnet.description ∧
    (subnetToCreate (fun _ _ => 0) demoSubnet).masterSubnetID = demoSubnet.masterSubnetID :=
  ⟨((subnet_create_frame (fun _ _ => 5) (fun _ => true) []).2 demoSubnet).2.2.2.2.2.2.1
      (by decide),
    ((subnet_create_frame (fun _ _ => 5) (fun _ => true) []).2 demoSubnet).1,
    ((subnet_create_frame (fun _ _ => 5) (fun _ => true) []).2 demoSubnet).2.2.1,
    ((subnet_create_frame (fun _ _ => 0) (fun _ => true) []).2 demoSubnet).2.2.2.2.2.2.2
      (by decide)⟩

end PhpipamMigrator

